import Mathlib

/-!
Shallow embedding of the code-health reporting script (src/code_dependency.py)
and proofs about its behaviour.

The script is a one-shot Git mining tool.  Its pure logic is embedded here as
executable Lean definitions, one per Python function, translated clause by
clause from the source:

* regular-expression matching against requirements-manifest lines
  (get_package_versions, extract_dependency_version);
* the abstract-syntax-tree walk that collects imported module names
  (extract_imports), together with an executable model of the Python
  parser restricted to modules made of import statements;
* the commit traversal that accumulates a per-file dependency dictionary
  (extract_dependencies), with the external pydriller repository object
  abstracted as an oracle producing a list of commits;
* the branch classification (list_branches), with the external GitPython
  repository object abstracted as a record of its observed answers.

File input and output performed by the script is outside the embedding; the
functions below model the values the script computes.  Python dictionaries
are modelled as association lists with in-place update (dictSet), which is
exactly the insertion-order semantics of dict assignment.  Python sets enter
only through the idiom list(set(a) | set(b)), whose iteration order is
unspecified; it is modelled by deduplicated concatenation, which has the
same membership.
-/

set_option autoImplicit false

namespace CodeDep

/-! ### String utilities

The embedding works on character lists with structural recursion so that
every definition evaluates by kernel reduction.  These model the Python
string operations used by the script. -/

/-- Model of the Python test s.endswith(suffix). -/
def strEndsWith (s suffix : String) : Bool :=
  suffix.toList.isSuffixOf s.toList

/-- Model of the Python whitespace class used by str.strip. -/
def isSpaceChar (c : Char) : Bool :=
  c = ' ' || c = '\t' || c = '\r' || c = '\n'

/-- Model of the Python call str.strip(): drop whitespace at both ends. -/
def trimChars (cs : List Char) : List Char :=
  ((cs.dropWhile isSpaceChar).reverse.dropWhile isSpaceChar).reverse

/-- Model of str.split(sep) for a one-character separator: splitting the
empty string yields one empty group, and separators produce group
boundaries. -/
def splitOnChar (sep : Char) : List Char → List (List Char)
  | [] => [[]]
  | c :: rest =>
    if c = sep then
      [] :: splitOnChar sep rest
    else
      match splitOnChar sep rest with
      | [] => [[c]]
      | g :: gs => (c :: g) :: gs

/-! ### Model of the Python parser on import statements

The script hands each file revision to the standard ast module.  The model
below parses the fragment of Python consisting of blank lines, of plain
and of from-import statements; any other line is reported
as a parse failure, standing for the SyntaxError path.  Sources outside
this fragment can still be described abstractly through the PySource
constructors further down. -/

/-- Import nodes as produced by the Python ast module: a plain import
statement carries the (possibly dotted) module names of its aliases, and a
from-import carries the optional module (the value None for a purely
relative one) plus the imported names. -/
inductive ImportNode where
  | imp (names : List String)
  | impFrom (module : Option String) (names : List String)
  deriving DecidableEq, Repr

/-- Identifier head character: a letter or underscore. -/
def isIdentStart (c : Char) : Bool := c.isAlpha || c = '_'

/-- Identifier tail character: a letter, digit or underscore. -/
def isIdentChar (c : Char) : Bool := c.isAlphanum || c = '_'

/-- Plain Python identifier. -/
def isIdent (cs : List Char) : Bool :=
  match cs with
  | [] => false
  | c :: rest => isIdentStart c && rest.all isIdentChar

/-- Dotted module path: nonempty dot-separated identifiers. -/
def isDottedIdent (cs : List Char) : Bool :=
  (splitOnChar '.' cs).all isIdent

/-- Splitter for the literal token " import " inside a from-import line,
scanning left to right as str.split does. -/
def splitImportKw : List Char → List (List Char)
  | ' ' :: 'i' :: 'm' :: 'p' :: 'o' :: 'r' :: 't' :: ' ' :: rest =>
    [] :: splitImportKw rest
  | c :: rest =>
    match splitImportKw rest with
    | [] => [[c]]
    | g :: gs => (c :: g) :: gs
  | [] => [[]]

/-- Splitter for the literal token " as " inside an alias item. -/
def splitAsKw : List Char → List (List Char)
  | ' ' :: 'a' :: 's' :: ' ' :: rest => [] :: splitAsKw rest
  | c :: rest =>
    match splitAsKw rest with
    | [] => [[c]]
    | g :: gs => (c :: g) :: gs
  | [] => [[]]

/-- Parse one comma-separated alias item, such as os or a.b or numpy as np.
The alias name recorded by the script is the name before the as keyword
(the field alias.name of the ast node).  Returns none on malformed items. -/
def parseAliasItem (dotted : Bool) (cs : List Char) : Option String :=
  let item := trimChars cs
  let okName : List Char → Bool := fun n => if dotted then isDottedIdent n else isIdent n
  match splitAsKw item with
  | [n] => if okName n then some (String.mk n) else Option.none
  | [n, a] => if okName (trimChars n) && isIdent (trimChars a)
              then some (String.mk (trimChars n)) else Option.none
  | _ => Option.none

/-- Parse the comma-separated alias list of an import statement. -/
def parseAliasItems (dotted : Bool) (cs : List Char) : Option (List String) :=
  (splitOnChar ',' cs).mapM (parseAliasItem dotted)

/-- Parse a single source line into zero or one import nodes; the outer
none is a parse failure (SyntaxError). -/
def parseImportLine (line : List Char) : Option (List ImportNode) :=
  match trimChars line with
  | [] => some []
  | 'i' :: 'm' :: 'p' :: 'o' :: 'r' :: 't' :: ' ' :: rest =>
    (parseAliasItems true rest).map (fun ns => [ImportNode.imp ns])
  | 'f' :: 'r' :: 'o' :: 'm' :: ' ' :: rest =>
    match splitImportKw rest with
    | [modPart, namesPart] =>
      let modTok := trimChars modPart
      let modName := modTok.dropWhile (fun c => c = '.')
      if modTok.isEmpty then Option.none
      else if modName.isEmpty then
        (parseAliasItems false namesPart).map
          (fun ns => [ImportNode.impFrom Option.none ns])
      else if isDottedIdent modName then
        (parseAliasItems false namesPart).map
          (fun ns => [ImportNode.impFrom (some (String.mk modName)) ns])
      else Option.none
    | _ => Option.none
  | _ => Option.none

/-- Model of ast.parse on the import-statement fragment: parse every line;
none models a SyntaxError, some gives the import nodes in source order,
which for a flat module is also the order of the breadth-first walk
performed by ast.walk. -/
def astParse (src : String) : Option (List ImportNode) :=
  ((splitOnChar '\n' src.toList).mapM parseImportLine).map List.flatten

/-- The value handed to extract_imports: either an actual source text (its
parse modelled by astParse), an arbitrary source abstracted by its import
nodes, an arbitrary source known to raise SyntaxError, or the value None
(pydriller yields None when the content is unavailable, and ast.parse then
raises a TypeError, which is not a SyntaxError). -/
inductive PySource where
  | text (s : String)
  | wellFormed (nodes : List ImportNode)
  | malformed
  | missing
  deriving DecidableEq, Repr

/-- Outcome of the parse step inside extract_imports. -/
def parseOutcome : PySource → Except Unit (Option (List ImportNode))
  | PySource.text s => Except.ok (astParse s)
  | PySource.wellFormed ns => Except.ok (some ns)
  | PySource.malformed => Except.ok Option.none
  | PySource.missing => Except.error ()

/-- Rendering of the module field inside the f-string of line 136: Python
formats the value None as the four-character string None. -/
def moduleRepr : Option String → String
  | some m => m
  | Option.none => "None"

/-- Contribution of one import node, lines 130 to 136 of the script: a
plain import appends each alias name, a from-import appends the f-string
of module and alias name. -/
def nodeImports : ImportNode → List String
  | ImportNode.imp names => names
  | ImportNode.impFrom module names =>
    names.map (fun n => moduleRepr module ++ "." ++ n)

/-- The accumulation loop of extract_imports over the walked nodes. -/
def collectImports (nodes : List ImportNode) : List String :=
  nodes.foldl (fun acc node => acc ++ nodeImports node) []

/-- Result of extract_imports as seen by its caller: ok carries the
returned value (none when a SyntaxError was caught and None returned),
and exn models any other exception escaping the function. -/
inductive ExtractOutcome where
  | ok (result : Option (List String))
  | exn
  deriving DecidableEq, Repr

/-- Embedding of extract_imports, lines 119 to 142: parse, walk, collect;
a SyntaxError yields the ok-None result, any other exception escapes. -/
def extract_imports (src : PySource) : ExtractOutcome :=
  match parseOutcome src with
  | Except.ok (some nodes) => ExtractOutcome.ok (some (collectImports nodes))
  | Except.ok Option.none => ExtractOutcome.ok Option.none
  | Except.error _ => ExtractOutcome.exn

/-! ### Dictionaries

Python dict assignment d[k] = v, modelled on association lists: the first
binding of k is replaced in place, otherwise the binding is appended.  A
dict built only through dictSet never holds a key twice. -/

/-- Lookup in the association-list model of a Python dict. -/
def dictGet {α : Type} (d : List (String × α)) (k : String) : Option α :=
  match d with
  | [] => Option.none
  | (k₁, v₁) :: rest => if k₁ = k then some v₁ else dictGet rest k

/-- Assignment in the association-list model of a Python dict. -/
def dictSet {α : Type} (d : List (String × α)) (k : String) (v : α) :
    List (String × α) :=
  match d with
  | [] => [(k, v)]
  | (k₁, v₁) :: rest =>
    if k₁ = k then (k, v) :: rest else (k₁, v₁) :: dictSet rest k v

/-! ### Requirements-manifest matching

The two regular expressions of the script, executed by maximal munch.
For both patterns every character class is disjoint from the class that
may follow it, so maximal munch coincides with the backtracking semantics
of the re module. -/

/-- Character class of the strict name group, the regex class for word
characters (ASCII view). -/
def isStrictNameChar (c : Char) : Bool := c.isAlphanum || c = '_'

/-- Character class of the strict version group: digits and dots. -/
def isStrictVersChar (c : Char) : Bool := c.isDigit || c = '.'

/-- Model of re.match against the strict pin pattern of line 41 of the
script: a word-character name, a literal double equals sign, and a
nonempty run of digits and dots; the match is anchored at the start and
trailing text is ignored. -/
def matchStrict (line : String) : Option (String × String) :=
  let cs := line.toList
  let name := cs.takeWhile isStrictNameChar
  let rest := cs.dropWhile isStrictNameChar
  if name.isEmpty then Option.none
  else
    match rest with
    | '=' :: '=' :: rest₂ =>
      let vers := rest₂.takeWhile isStrictVersChar
      if vers.isEmpty then Option.none
      else some (String.mk name, String.mk vers)
    | _ => Option.none

/-- Per-line step of get_package_versions: on a match, dict assignment of
the captured version under the captured name. -/
def gpvStep (package_versions : List (String × String)) (line : String) :
    List (String × String) :=
  match matchStrict line with
  | some (package_name, version) => dictSet package_versions package_name version
  | Option.none => package_versions

/-- Embedding of get_package_versions, lines 37 to 45, over the lines of
the manifest file. -/
def get_package_versions (lines : List String) : List (String × String) :=
  lines.foldl gpvStep []

/-- Character class of the loose name group: letters, digits, hyphen,
underscore. -/
def isLooseNameChar (c : Char) : Bool :=
  c.isAlpha || c.isDigit || c = '-' || c = '_'

/-- Character class of the loose operator group. -/
def isLooseOpChar (c : Char) : Bool :=
  c = '=' || c = '>' || c = '<' || c = '!' || c = '~'

/-- Character class of the tail of the loose version group: digits, dots,
word characters and asterisks; the empty alternative of the regex makes
the group stop at the first character outside this class. -/
def isLooseVersChar (c : Char) : Bool :=
  c.isDigit || c = '.' || c.isAlphanum || c = '_' || c = '*'

/-- Model of re.match against the looser pattern of line 112 of the
script: a name, a nonempty operator run, and a version that starts with a
digit and continues through the loose version class.  The three captured
groups are returned. -/
def matchLoose (line : String) : Option (String × String × String) :=
  let cs := line.toList
  let name := cs.takeWhile isLooseNameChar
  let rest₁ := cs.dropWhile isLooseNameChar
  let op := rest₁.takeWhile isLooseOpChar
  let rest₂ := rest₁.dropWhile isLooseOpChar
  if name.isEmpty || op.isEmpty then Option.none
  else
    match rest₂ with
    | c :: tail =>
      if c.isDigit then
        some (String.mk name, String.mk op, String.mk (c :: tail.takeWhile isLooseVersChar))
      else Option.none
    | [] => Option.none

/-- Per-line step of extract_dependency_version: the operator group is
unpacked into the discarded variable of line 114, so only name and
version reach the dictionary. -/
def depVersionStep (package_versions : List (String × String)) (line : String) :
    List (String × String) :=
  match matchLoose line with
  | some (package_name, _op, version) => dictSet package_versions package_name version
  | Option.none => package_versions

/-- Embedding of extract_dependency_version, lines 107 to 117, over the
lines of the manifest file. -/
def extract_dependency_version (lines : List String) : List (String × String) :=
  lines.foldl depVersionStep []

/-! ### The commit traversal of extract_dependencies

The pydriller Repository object is abstracted as an oracle mapping the
chosen source (remote URL or local directory) together with the optional
commit-range bounds to the list of commits that traverse_commits yields.
Each modified file is a record of the pydriller attributes the script
reads: the path inside the repository, the change type, and the source
content. -/

/-- Change types of pydriller, module pydriller.domain.commit. -/
inductive ModificationType where
  | ADD
  | COPY
  | RENAME
  | DELETE
  | MODIFY
  | UNKNOWN
  deriving DecidableEq, Repr

/-- A modified file as the script observes it. -/
structure ModifiedFile where
  new_path : String
  change_type : ModificationType
  source_code : PySource
  deriving DecidableEq, Repr

/-- The pydriller property ModifiedFile.filename: the base name of the
path, that is the component after the last slash, with no directory
part. -/
def ModifiedFile.filename (m : ModifiedFile) : String :=
  String.mk ((splitOnChar '/' m.new_path.toList).getLastD [])

/-- A commit as the traversal observes it; the value none for the field
modified_files stands for a commit on which reading the modified files
raises a ValueError, which the script catches at lines 185 to 187 and
answers by skipping the commit. -/
structure Commit where
  modified_files : Option (List ModifiedFile)
  deriving DecidableEq, Repr

/-- The three accumulators of extract_dependencies. -/
structure DepState where
  dependencies : List (String × List String)
  ignored_files : Nat
  other_extensions : List String
  deriving DecidableEq, Repr

/-- Model of the Python idiom list(set(a) | set(b)) at line 174: a list
with the membership of the union; the iteration order of a Python set is
unspecified, so only membership in this list is meaningful. -/
def pySetUnion (a b : List String) : List String :=
  (a ++ b).dedup

/-- Per-file body of the traversal, lines 162 to 184 of the script: a
Python file of change type ADD or MODIFY has its imports extracted; a
successful extraction is merged into the dependency dict under the base
filename; the returned-None case bumps the ignored counter; any other
exception is caught and the file skipped; a file without the Python
extension is appended to the other-extensions list. -/
def processFile (st : DepState) (m : ModifiedFile) : DepState :=
  if strEndsWith m.filename ".py" then
    if m.change_type = ModificationType.ADD ∨ m.change_type = ModificationType.MODIFY then
      match extract_imports m.source_code with
      | ExtractOutcome.ok (some file_dependencies) =>
        match dictGet st.dependencies m.filename with
        | some existing =>
          DepState.mk (dictSet st.dependencies m.filename (pySetUnion existing file_dependencies))
            st.ignored_files st.other_extensions
        | Option.none =>
          DepState.mk (dictSet st.dependencies m.filename file_dependencies)
            st.ignored_files st.other_extensions
      | ExtractOutcome.ok Option.none =>
        DepState.mk st.dependencies (st.ignored_files + 1) st.other_extensions
      | ExtractOutcome.exn => st
    else st
  else DepState.mk st.dependencies st.ignored_files (st.other_extensions ++ [m.filename])

/-- Per-commit body of the traversal: iterate the modified files, or skip
the whole commit when reading them raises a ValueError. -/
def processCommit (st : DepState) (c : Commit) : DepState :=
  match c.modified_files with
  | some mods => mods.foldl processFile st
  | Option.none => st

/-- The full traversal loop starting from empty accumulators. -/
def runTraversal (commits : List Commit) : DepState :=
  commits.foldl processCommit (DepState.mk [] 0 [])

/-- Result of extract_dependencies: the accumulated state, or the
ValueError raised when no source is supplied. -/
inductive DepResult where
  | ok (state : DepState)
  | valueError (msg : String)
  deriving DecidableEq, Repr

/-- Embedding of extract_dependencies, lines 144 to 190.  The branching on
the two source arguments mirrors the if-elif-else of lines 150 to 155: a
non-null repo_url wins, a non-null local_directory is used otherwise, and
only when both are null is the ValueError raised.  The parameter
traverse_commits abstracts the pydriller Repository built from the chosen
source and the commit bounds.  The Python signature also carries a
parameter filepath_filter that the body never reads; it is omitted here. -/
def extract_dependencies (repo_url local_directory : Option String)
    (from_commit to_commit : Option String)
    (traverse_commits : String → Option String → Option String → List Commit) :
    DepResult :=
  match repo_url with
  | some url => DepResult.ok (runTraversal (traverse_commits url from_commit to_commit))
  | Option.none =>
    match local_directory with
    | some dir => DepResult.ok (runTraversal (traverse_commits dir from_commit to_commit))
    | Option.none => DepResult.valueError "Either repo_url or local_directory must be provided."

/-! ### The dependency-report version lookup

Lines 241 to 244 of the script annotate each stored import with the
version found in the package-version dict under the text before the first
dot, falling back to the literal string unknown. -/

/-- Model of the Python expression dependency.split(...)[0] with a dot
separator: the text before the first dot. -/
def headSegment (s : String) : String :=
  String.mk ((splitOnChar '.' s.toList).headD [])

/-- The version chosen for one dependency entry, line 243 of the script:
dict lookup under the head segment with default unknown. -/
def resolveVersion (package_versions : List (String × String)) (dependency : String) :
    String :=
  match dictGet package_versions (headSegment dependency) with
  | some v => v
  | Option.none => "unknown"

/-! ### Branch classification

The GitPython repository object is abstracted as a record of the three
observations list_branches makes of it: the branch names, the raw text
answered by the porcelain call git branch with the merged flag, and the
active branch name.  The write of branches.txt is output only and is not
part of the embedding. -/

/-- Observed repository state for list_branches. -/
structure GitRepo where
  branches : List String
  merged_output : String
  active_branch : String
  deriving DecidableEq, Repr

/-- Embedding of list_branches, lines 9 to 35: the merged list is the
newline-split and stripped porcelain output; the unmerged list is the set
difference of all branches and the merged list, with the active branch
then removed from the unmerged list only.  The set difference is modelled
as a deduplicated filtered list, matching the membership of the Python
set; the Python iteration order of that set is unspecified. -/
def list_branches (repo : GitRepo) : List String × List String :=
  let all_branches := repo.branches
  let merged_branches :=
    (splitOnChar '\n' repo.merged_output.toList).map (fun b => String.mk (trimChars b))
  let unmerged₀ := all_branches.dedup.filter (fun b => decide (b ∉ merged_branches))
  let current_branch := repo.active_branch
  let unmerged_branches :=
    if current_branch ∈ unmerged₀ then unmerged₀.erase current_branch else unmerged₀
  (merged_branches, unmerged_branches)

/-! ### Helper lemmas -/

/-- Reading a dict right after assigning the same key yields the assigned
value. -/
theorem dictGet_dictSet_self {α : Type} (d : List (String × α)) (k : String) (v : α) :
    dictGet (dictSet d k v) k = some v := by
  induction d with
  | nil => simp [dictGet, dictSet]
  | cons p rest ih =>
    obtain ⟨k₁, v₁⟩ := p
    by_cases h : k₁ = k
    · simp [dictGet, dictSet, h]
    · simp [dictGet, dictSet, h, ih]

/-- Assigning one key leaves every other key unchanged. -/
theorem dictGet_dictSet_ne {α : Type} (d : List (String × α)) (k k₂ : String) (v : α)
    (h : k₂ ≠ k) : dictGet (dictSet d k v) k₂ = dictGet d k₂ := by
  induction d with
  | nil =>
    have hne : ¬ k = k₂ := fun hh => h hh.symm
    simp [dictGet, dictSet, hne]
  | cons p rest ih =>
    obtain ⟨k₁, v₁⟩ := p
    by_cases h₁ : k₁ = k
    · subst h₁
      have hne : ¬ k₁ = k₂ := fun hh => h hh.symm
      simp [dictGet, dictSet, hne]
    · simp [dictGet, dictSet, h₁, ih]

/-- Membership in the model of the Python set union is membership in
either operand. -/
theorem mem_pySetUnion (x : String) (a b : List String) :
    x ∈ pySetUnion a b ↔ x ∈ a ∨ x ∈ b := by
  simp [pySetUnion]

/-- The accumulation loop of extract_imports flattens the per-node
contributions in node order. -/
theorem collectImports_eq_flatten (nodes : List ImportNode) :
    collectImports nodes = (nodes.map nodeImports).flatten := by
  have aux : ∀ (ns : List ImportNode) (acc : List String),
      ns.foldl (fun a node => a ++ nodeImports node) acc
        = acc ++ (ns.map nodeImports).flatten := by
    intro ns
    induction ns with
    | nil => intro acc; simp
    | cons n rest ih => intro acc; simp [ih, List.append_assoc]
  simpa using aux nodes []

/-! ### Claim theorems -/

/-- Claim C1: on the source text of the two lines import os and
from collections import OrderedDict, extract_imports returns exactly the
list of the module name os followed by the concatenation
collections.OrderedDict; and in general, on any source whose import nodes
are known, the function returns the flattened per-node contributions,
where a plain import contributes each alias name and a from-import
contributes the module-dot-name string for each alias (nodeImports). -/
theorem extract_imports_on_example_and_nodes :
    extract_imports (PySource.text "import os\nfrom collections import OrderedDict")
      = ExtractOutcome.ok (some ["os", "collections.OrderedDict"])
    ∧ ∀ nodes : List ImportNode,
        extract_imports (PySource.wellFormed nodes)
          = ExtractOutcome.ok (some ((nodes.map nodeImports).flatten)) := by
  constructor
  · rfl
  · intro nodes
    simp [extract_imports, parseOutcome, collectImports_eq_flatten]

/-- Claim C10: a from-import with no explicit module, such as the line
from . import x, has the module field None, and the f-string renders it
as the literal text None, so the recorded entry is None.x; in general a
from-import node with an absent module contributes the None-dot-name
text for each imported name. -/
theorem extract_imports_relative_import :
    extract_imports (PySource.text "from . import x")
      = ExtractOutcome.ok (some ["None.x"])
    ∧ ∀ names : List String,
        nodeImports (ImportNode.impFrom Option.none names)
          = names.map (fun n => "None." ++ n) := by
  constructor
  · rfl
  · intro names
    rfl

/-- Claim C4 counterexample: on the manifest line click>=8.0,!=8.0.1 the
looser-pattern resolver maps click to the bare version text 8.0, not to
the operator-carrying text >=8.0 stated by the claim; the operator group
is unpacked into a discarded variable at line 114 of the script. -/
theorem depVersion_click_counterexample :
    dictGet (extract_dependency_version ["click>=8.0,!=8.0.1"]) "click" = some "8.0"
    ∧ dictGet (extract_dependency_version ["click>=8.0,!=8.0.1"]) "click" ≠ some ">=8.0" := by
  constructor
  · rfl
  · decide

/-- Claim C4 amended: for every manifest line exactly equal to
click>=8.0,!=8.0.1, the looser-pattern resolver produces an entry mapping
the package name click to the version string 8.0 (the comparison operator
is captured in a separate group and discarded), whatever dictionary has
been accumulated before the line. -/
theorem depVersion_click_amended (d : List (String × String)) :
    dictGet (depVersionStep d "click>=8.0,!=8.0.1") "click" = some "8.0"
    ∧ extract_dependency_version ["click>=8.0,!=8.0.1"] = [("click", "8.0")] := by
  constructor
  · have hm : matchLoose "click>=8.0,!=8.0.1" = some ("click", ">=", "8.0") := rfl
    simp [depVersionStep, hm, dictGet_dictSet_self]
  · rfl

/-- Stepping over manifest lines none of which matches the strict pattern
with the given name leaves that name of the dictionary unchanged. -/
theorem gpv_preserve (post : List String) (n : String) (d : List (String × String))
    (hpost : ∀ l ∈ post, ∀ p : String × String, matchStrict l = some p → p.1 ≠ n) :
    dictGet (post.foldl gpvStep d) n = dictGet d n := by
  revert hpost
  induction post generalizing d with
  | nil => intro _; rfl
  | cons l rest ih =>
    intro hpost
    have hstep : dictGet (gpvStep d l) n = dictGet d n := by
      unfold gpvStep
      cases hm : matchStrict l with
      | none => rfl
      | some p =>
        obtain ⟨pn, pv⟩ := p
        have hne : pn ≠ n := hpost l (by simp) (pn, pv) hm
        exact dictGet_dictSet_ne d pn n pv (Ne.symm hne)
    have ihr := ih (gpvStep d l)
      (fun l₂ hl₂ p hp => hpost l₂ (List.mem_cons_of_mem _ hl₂) p hp)
    simpa [List.foldl_cons, hstep] using ihr

/-- Claim C7: a strict manifest line such as flask==2.0.1 yields the
entry flask mapped to 2.0.1, and in general, when a line matching the
strict pattern with name n and version v is followed only by lines that
do not strictly match that name, the resulting table maps n to v: the
last matching occurrence of a name wins. -/
theorem get_package_versions_strict_last_wins :
    get_package_versions ["flask==2.0.1"] = [("flask", "2.0.1")]
    ∧ ∀ (pre post : List String) (line n v : String),
        matchStrict line = some (n, v) →
        (∀ l ∈ post, ∀ p : String × String, matchStrict l = some p → p.1 ≠ n) →
        dictGet (get_package_versions (pre ++ line :: post)) n = some v := by
  constructor
  · rfl
  · intro pre post line n v hline hpost
    unfold get_package_versions
    rw [List.foldl_append]
    simp only [List.foldl_cons]
    rw [gpv_preserve post n _ hpost]
    unfold gpvStep
    rw [hline]
    exact dictGet_dictSet_self _ n v

/-- Witness for claim C7: a duplicated name takes the version of the last
matching line. -/
theorem get_package_versions_strict_last_wins_witness :
    dictGet (get_package_versions (["flask==1.0"] ++ "flask==2.0.1" :: [])) "flask"
      = some "2.0.1" :=
  get_package_versions_strict_last_wins.2 ["flask==1.0"] [] "flask==2.0.1"
    "flask" "2.0.1" rfl (fun l hl => absurd hl (List.not_mem_nil l))

/-- Claim C8: a dependency entry whose text before the first dot has no
binding in the package-version table resolves to the literal string
unknown, and the resolution reads nothing but that head segment: two
entries with the same head segment resolve identically. -/
theorem resolveVersion_unknown_and_head_only (pv : List (String × String))
    (dep dep₂ : String) :
    (dictGet pv (headSegment dep) = Option.none → resolveVersion pv dep = "unknown")
    ∧ (headSegment dep = headSegment dep₂ →
        resolveVersion pv dep = resolveVersion pv dep₂) := by
  constructor
  · intro h
    simp [resolveVersion, h]
  · intro h
    simp [resolveVersion, h]

/-- Witness for claim C8: with only flask in the table, the stored import
os.path resolves to unknown, and os.path resolves the same as os.sep. -/
theorem resolveVersion_witness :
    resolveVersion [("flask", "2.0.1")] "os.path" = "unknown"
    ∧ resolveVersion [("flask", "2.0.1")] "os.path"
        = resolveVersion [("flask", "2.0.1")] "os.sep" :=
  ⟨(resolveVersion_unknown_and_head_only [("flask", "2.0.1")] "os.path" "os.sep").1
      (by decide),
   (resolveVersion_unknown_and_head_only [("flask", "2.0.1")] "os.path" "os.sep").2
      (by decide)⟩

/-- Claim C3: inside the traversal, an added or modified Python file whose
source fails to parse (extract_imports returns None) leaves the
dependency dict and the other-extensions list unchanged and bumps the
ignored counter by exactly one, while a file whose extraction raises any
other exception is skipped with all three accumulators unchanged. -/
theorem processFile_error_bookkeeping (st : DepState) (m : ModifiedFile)
    (hpy : strEndsWith m.filename ".py" = true)
    (hct : m.change_type = ModificationType.ADD ∨ m.change_type = ModificationType.MODIFY) :
    (extract_imports m.source_code = ExtractOutcome.ok Option.none →
        processFile st m
          = DepState.mk st.dependencies (st.ignored_files + 1) st.other_extensions)
    ∧ (extract_imports m.source_code = ExtractOutcome.exn → processFile st m = st) := by
  rcases hct with h₁ | h₁ <;> constructor <;> intro h <;>
    simp [processFile, hpy, h₁, h]

/-- Witness for claim C3: a syntactically broken added file bumps the
counter; a file whose content is unavailable (None) is skipped without
any bookkeeping. -/
theorem processFile_error_bookkeeping_witness :
    processFile (DepState.mk [] 0 [])
        (ModifiedFile.mk "bad.py" ModificationType.ADD PySource.malformed)
      = DepState.mk [] 1 []
    ∧ processFile (DepState.mk [] 0 [])
        (ModifiedFile.mk "gone.py" ModificationType.MODIFY PySource.missing)
      = DepState.mk [] 0 [] := by
  constructor
  · exact (processFile_error_bookkeeping (DepState.mk [] 0 [])
      (ModifiedFile.mk "bad.py" ModificationType.ADD PySource.malformed)
      (by decide) (Or.inl rfl)).1 rfl
  · exact (processFile_error_bookkeeping (DepState.mk [] 0 [])
      (ModifiedFile.mk "gone.py" ModificationType.MODIFY PySource.missing)
      (by decide) (Or.inr rfl)).2 rfl

/-- Claim C5 counterexample: with both a remote URL and a local directory
supplied, extract_dependencies does not fail; the branching of lines 150
to 155 uses the remote URL and never reaches the raise. -/
theorem extract_dependencies_both_supplied :
    extract_dependencies (some "https://example.org/repo.git") (some "/tmp/repo")
        Option.none Option.none (fun _ _ _ => ([] : List Commit))
      = DepResult.ok (DepState.mk [] 0 []) := rfl

/-- Claim C5 amended: extract_dependencies raises the invalid-argument
ValueError exactly when neither the remote URL nor the local directory is
supplied; when both are supplied the remote URL takes precedence and the
call proceeds on it. -/
theorem extract_dependencies_argument_check
    (repo_url local_directory fc tc : Option String)
    (traverse : String → Option String → Option String → List Commit) :
    ((∃ msg, extract_dependencies repo_url local_directory fc tc traverse
          = DepResult.valueError msg)
        ↔ repo_url = Option.none ∧ local_directory = Option.none)
    ∧ ∀ url, repo_url = some url →
        extract_dependencies repo_url local_directory fc tc traverse
          = DepResult.ok (runTraversal (traverse url fc tc)) := by
  constructor
  · constructor
    · rintro ⟨msg, hmsg⟩
      cases repo_url with
      | some u => simp [extract_dependencies] at hmsg
      | none =>
        cases local_directory with
        | some d => simp [extract_dependencies] at hmsg
        | none => exact ⟨rfl, rfl⟩
    · rintro ⟨h₁, h₂⟩
      subst h₁
      subst h₂
      exact ⟨_, rfl⟩
  · intro url hu
    subst hu
    rfl

/-- Witness for claim C5 amended: both sources supplied, the remote URL is
the one traversed. -/
theorem extract_dependencies_argument_check_witness :
    extract_dependencies (some "https://example.org/repo.git") (some "/tmp/repo")
        Option.none Option.none (fun _ _ _ => ([] : List Commit))
      = DepResult.ok (runTraversal
          ((fun (_ : String) (_ : Option String) (_ : Option String) =>
              ([] : List Commit)) "https://example.org/repo.git"
            Option.none Option.none)) :=
  (extract_dependencies_argument_check (some "https://example.org/repo.git")
      (some "/tmp/repo") Option.none Option.none (fun _ _ _ => [])).2
    "https://example.org/repo.git" rfl

/-- Claim C2 counterexample: two Python files at the paths a/util.py and
b/util.py, added in two successive commits, do not get separate entries;
the dict is keyed by the pydriller filename attribute, the base name
util.py, so the run ends with a single merged entry and neither path is a
key. -/
theorem dependency_dict_key_counterexample :
    extract_dependencies Option.none (some "/tmp/repo") Option.none Option.none
        (fun _ _ _ =>
          [Commit.mk (some [ModifiedFile.mk "a/util.py" ModificationType.ADD
              (PySource.wellFormed [ImportNode.imp ["os"]])]),
           Commit.mk (some [ModifiedFile.mk "b/util.py" ModificationType.ADD
              (PySource.wellFormed [ImportNode.imp ["re"]])])])
      = DepResult.ok (DepState.mk [("util.py", ["os", "re"])] 0 [])
    ∧ dictGet [(("util.py" : String), (["os", "re"] : List String))] "a/util.py"
        = Option.none := by
  constructor
  · rfl
  · rfl

/-- Claim C2 amended: the mapping returned by extract_dependencies is
keyed by the base filename of each added or modified Python file, so two
Python files with the same base name in different directories share one
entry: processing both leaves a single binding under that base name
holding the union of their import lists. -/
theorem dependency_dict_key_amended (m₁ m₂ : ModifiedFile) (ns₁ ns₂ : List ImportNode)
    (hf : m₁.filename = m₂.filename)
    (hpy : strEndsWith m₁.filename ".py" = true)
    (hc₁ : m₁.change_type = ModificationType.ADD ∨ m₁.change_type = ModificationType.MODIFY)
    (hc₂ : m₂.change_type = ModificationType.ADD ∨ m₂.change_type = ModificationType.MODIFY)
    (hs₁ : m₁.source_code = PySource.wellFormed ns₁)
    (hs₂ : m₂.source_code = PySource.wellFormed ns₂) :
    (runTraversal [Commit.mk (some [m₁]), Commit.mk (some [m₂])]).dependencies
      = [(m₁.filename, pySetUnion (collectImports ns₁) (collectImports ns₂))]
    ∧ ∀ x, x ∈ pySetUnion (collectImports ns₁) (collectImports ns₂)
        ↔ x ∈ collectImports ns₁ ∨ x ∈ collectImports ns₂ := by
  constructor
  · have e₁ : extract_imports m₁.source_code
        = ExtractOutcome.ok (some (collectImports ns₁)) := by rw [hs₁]; rfl
    have e₂ : extract_imports m₂.source_code
        = ExtractOutcome.ok (some (collectImports ns₂)) := by rw [hs₂]; rfl
    rcases hc₁ with h₁ | h₁ <;> rcases hc₂ with h₂ | h₂ <;>
      simp [runTraversal, processCommit, processFile, e₁, e₂, hpy, ← hf, h₁, h₂,
        dictGet, dictSet]
  · intro x
    exact mem_pySetUnion x _ _

/-- Witness for claim C2 amended: the files a/util.py and b/util.py end in
the single entry util.py holding the union of their imports. -/
theorem dependency_dict_key_amended_witness :
    (runTraversal [Commit.mk (some [ModifiedFile.mk "a/util.py" ModificationType.ADD
          (PySource.wellFormed [ImportNode.imp ["os"]])]),
        Commit.mk (some [ModifiedFile.mk "b/util.py" ModificationType.MODIFY
          (PySource.wellFormed [ImportNode.imp ["re"]])])]).dependencies
      = [("util.py", pySetUnion (collectImports [ImportNode.imp ["os"]])
          (collectImports [ImportNode.imp ["re"]]))] :=
  (dependency_dict_key_amended
      (ModifiedFile.mk "a/util.py" ModificationType.ADD
        (PySource.wellFormed [ImportNode.imp ["os"]]))
      (ModifiedFile.mk "b/util.py" ModificationType.MODIFY
        (PySource.wellFormed [ImportNode.imp ["re"]]))
      [ImportNode.imp ["os"]] [ImportNode.imp ["re"]]
      rfl (by decide) (Or.inl rfl) (Or.inr rfl) rfl rfl).1

/-- One traversal step never shrinks an existing dependency entry: the
entry survives and its members are preserved. -/
theorem processFile_mono (st : DepState) (m : ModifiedFile) (k : String)
    (v : List String) (h : dictGet st.dependencies k = some v) :
    ∃ w, dictGet (processFile st m).dependencies k = some w ∧ ∀ x ∈ v, x ∈ w := by
  by_cases hpy : strEndsWith m.filename ".py" = true
  · by_cases hct : m.change_type = ModificationType.ADD
        ∨ m.change_type = ModificationType.MODIFY
    · cases hext : extract_imports m.source_code with
      | exn =>
        exact ⟨v, by simp [processFile, hpy, hct, hext, h], fun x hx => hx⟩
      | ok r =>
        cases r with
        | none =>
          exact ⟨v, by simp [processFile, hpy, hct, hext, h], fun x hx => hx⟩
        | some fdeps =>
          by_cases hk : k = m.filename
          · subst hk
            refine ⟨pySetUnion v fdeps, ?_, ?_⟩
            · simp [processFile, hpy, hct, hext, h, dictGet_dictSet_self]
            · intro x hx
              exact (mem_pySetUnion x v fdeps).mpr (Or.inl hx)
          · cases hg : dictGet st.dependencies m.filename with
            | none =>
              refine ⟨v, ?_, fun x hx => hx⟩
              simp only [processFile, hpy, hct, hext, hg, if_pos, if_true]
              simpa [hpy, hct] using
                (dictGet_dictSet_ne st.dependencies m.filename k fdeps hk).trans h
            | some existing =>
              refine ⟨v, ?_, fun x hx => hx⟩
              simp only [processFile, hpy, hct, hext, hg, if_pos, if_true]
              simpa [hpy, hct] using
                (dictGet_dictSet_ne st.dependencies m.filename k
                  (pySetUnion existing fdeps) hk).trans h
    · exact ⟨v, by simp [processFile, hpy, hct, h], fun x hx => hx⟩
  · exact ⟨v, by simp [processFile, hpy, h], fun x hx => hx⟩

/-- Folding traversal steps over a list never shrinks an existing
dependency entry. -/
theorem foldl_processFile_mono (mods : List ModifiedFile) (st : DepState) (k : String)
    (v : List String) (h : dictGet st.dependencies k = some v) :
    ∃ w, dictGet (mods.foldl processFile st).dependencies k = some w
      ∧ ∀ x ∈ v, x ∈ w := by
  induction mods generalizing st v with
  | nil => exact ⟨v, h, fun x hx => hx⟩
  | cons m rest ih =>
    obtain ⟨w₁, hw₁, hs₁⟩ := processFile_mono st m k v h
    obtain ⟨w₂, hw₂, hs₂⟩ := ih (processFile st m) w₁ hw₁
    exact ⟨w₂, by simpa using hw₂, fun x hx => hs₂ x (hs₁ x hx)⟩

/-- One whole commit never shrinks an existing dependency entry. -/
theorem processCommit_mono (st : DepState) (c : Commit) (k : String)
    (v : List String) (h : dictGet st.dependencies k = some v) :
    ∃ w, dictGet (processCommit st c).dependencies k = some w ∧ ∀ x ∈ v, x ∈ w := by
  cases c with
  | mk mf =>
    cases mf with
    | none => exact ⟨v, h, fun x hx => hx⟩
    | some mods => exact foldl_processFile_mono mods st k v h

/-- Any remaining stretch of the commit traversal never shrinks an
existing dependency entry. -/
theorem foldl_processCommit_mono (cs : List Commit) (st : DepState) (k : String)
    (v : List String) (h : dictGet st.dependencies k = some v) :
    ∃ w, dictGet (cs.foldl processCommit st).dependencies k = some w
      ∧ ∀ x ∈ v, x ∈ w := by
  induction cs generalizing st v with
  | nil => exact ⟨v, h, fun x hx => hx⟩
  | cons c rest ih =>
    obtain ⟨w₁, hw₁, hs₁⟩ := processCommit_mono st c k v h
    obtain ⟨w₂, hw₂, hs₂⟩ := ih (processCommit st c) w₁ hw₁
    exact ⟨w₂, by simpa using hw₂, fun x hx => hs₂ x (hs₁ x hx)⟩

/-- Claim C6: throughout the traversal the recorded import sets are
monotonically non-decreasing; from any intermediate state, running any
list of further commits keeps every existing dict entry present, and
every import already recorded for a key is still recorded for it
afterwards. -/
theorem dependency_sets_monotone (st : DepState) (cs : List Commit) (k : String) :
    ((dictGet st.dependencies k).isSome = true →
        (dictGet (cs.foldl processCommit st).dependencies k).isSome = true)
    ∧ ∀ x : String, x ∈ (dictGet st.dependencies k).getD [] →
        x ∈ (dictGet (cs.foldl processCommit st).dependencies k).getD [] := by
  constructor
  · intro hk
    obtain ⟨v, hv⟩ := Option.isSome_iff_exists.mp hk
    obtain ⟨w, hw, _⟩ := foldl_processCommit_mono cs st k v hv
    simp [hw]
  · intro x hx
    cases hv : dictGet st.dependencies k with
    | none => simp [hv] at hx
    | some v =>
      obtain ⟨w, hw, hs⟩ := foldl_processCommit_mono cs st k v hv
      rw [hv] at hx
      simp only [Option.getD_some] at hx
      simp [hw, hs x hx]

/-- Witness for claim C6: an entry holding os survives a later commit that
modifies the same file with different imports. -/
theorem dependency_sets_monotone_witness :
    "os" ∈ (dictGet (([Commit.mk (some [ModifiedFile.mk "b/util.py"
          ModificationType.MODIFY (PySource.wellFormed [ImportNode.imp ["re"]])])]).foldl
        processCommit (DepState.mk [("util.py", ["os"])] 0 [])).dependencies
        "util.py").getD [] :=
  (dependency_sets_monotone (DepState.mk [("util.py", ["os"])] 0 [])
      [Commit.mk (some [ModifiedFile.mk "b/util.py" ModificationType.MODIFY
        (PySource.wellFormed [ImportNode.imp ["re"]])])] "util.py").2
    "os" (by decide)

/-- Claim C9: the unmerged list returned by list_branches has exactly the
branches that are neither in the merged list nor the active branch (the
active branch is removed from the unmerged side only), and no branch name
appears in both returned lists. -/
theorem list_branches_set_algebra (repo : GitRepo) :
    (∀ b, b ∈ (list_branches repo).2 ↔
        b ∈ repo.branches ∧ b ∉ (list_branches repo).1 ∧ b ≠ repo.active_branch)
    ∧ ∀ b, b ∈ (list_branches repo).1 → b ∉ (list_branches repo).2 := by
  have hmain : ∀ b, b ∈ (list_branches repo).2 ↔
      b ∈ repo.branches ∧ b ∉ (list_branches repo).1 ∧ b ≠ repo.active_branch := by
    intro b
    unfold list_branches
    set merged := (splitOnChar '\n' repo.merged_output.toList).map
      (fun c => String.mk (trimChars c)) with hm
    set u₀ := repo.branches.dedup.filter (fun x => decide (x ∉ merged)) with hu
    have hnd : u₀.Nodup := (List.nodup_dedup _).filter _
    have hmem₀ : ∀ x, x ∈ u₀ ↔ x ∈ repo.branches ∧ x ∉ merged := by
      intro x
      rw [hu]
      simp [List.mem_filter]
    by_cases hact : repo.active_branch ∈ u₀
    · simp only [hact, if_true]
      rw [hnd.mem_erase_iff, hmem₀ b]
      tauto
    · simp only [hact, if_false]
      rw [hmem₀ b]
      constructor
      · rintro ⟨hb, hnm⟩
        refine ⟨hb, hnm, ?_⟩
        intro heq
        subst heq
        exact hact ((hmem₀ repo.active_branch).mpr ⟨hb, hnm⟩)
      · tauto
  exact ⟨hmain, fun b hb hbu => ((hmain b).mp hbu).2.1 hb⟩

/-- Witness for claim C9: in a concrete repository state the branch main,
present in the merged list, is absent from the unmerged list. -/
theorem list_branches_set_algebra_witness :
    "main" ∉ (list_branches (GitRepo.mk ["main", "dev"] "  main\n* feature" "main")).2 :=
  (list_branches_set_algebra (GitRepo.mk ["main", "dev"] "  main\n* feature" "main")).2
    "main" (by decide)

end CodeDep
